import Mathlib

/-!
Verification development for the crawl-and-ingest pipeline of the
`abitura-ai-bot` repository.

The embedding is shallow: each Python function of
`selenium_recursive_loader.py` and `document_processor.py` is translated
into an executable Lean definition.  Python strings are modelled as Lean
`String` (a structure over `List Char`); Python string primitives
(`startswith`, `rstrip("/")`, substring membership, `urljoin` for
absolute-path references against a `scheme://host[/path]` base) are
modelled as explicit list-level functions below.  The Selenium browser is
modelled as a `World`: a map from URL to rendered page (extracted content
plus the `href` attributes in document order) together with the success of
`driver.get` and of each `WebDriverWait` poll.  Python's `set` has an
unspecified iteration order, so the crawler is parameterised by a
set-iteration function `si : List String → List String`; a lawful
instantiation returns a duplicate-free list with the same membership.
Exceptions are modelled with `Except Unit`; mutation of the loader's
`_visited_urls` field is explicit state threading that survives an
exception, exactly as a Python field does.
-/

namespace AbituraBot

/-- Python `url.startswith(pre)`: `pre` is a prefix of `s`. -/
def pyStartswith (s pre : String) : Bool :=
  pre.data.isPrefixOf s.data

/-- Python `url.rstrip("/")`: remove every trailing `'/'`. -/
def pyRstripSlash (s : String) : String :=
  ⟨(s.data.reverse.dropWhile (fun c => c == '/')).reverse⟩

/-- Test that `needle` occurs as a contiguous sublist of `hay`. -/
def infixAux (needle : List Char) : List Char → Bool
  | [] => needle.isPrefixOf []
  | c :: rest => needle.isPrefixOf (c :: rest) || infixAux needle rest

/-- Python `needle in hay` on strings: substring membership. -/
def pyIn (needle hay : String) : Bool :=
  infixAux needle.data hay.data

/-- Scan a character list up to the first `':'`, returning the part before
it and the part after it (`none` when there is no colon). -/
def splitAtColon : List Char → Option (List Char × List Char)
  | [] => none
  | c :: rest =>
    if c = ':' then some ([], rest)
    else (splitAtColon rest).map (fun p => (c :: p.1, p.2))

/-- The authority part of `rest`: characters up to the first `'/'`. -/
def hostPart : List Char → List Char
  | [] => []
  | c :: rest => if c = '/' then [] else c :: hostPart rest

/-- Python `urllib.parse.urljoin(base, u)` for the case used by the loader:
`u` is an absolute-path reference (starts with `"/"`).  For a base of the
form `scheme://host[/path...]` the result is `scheme://host ++ u`; for a
base with no `scheme://` the absolute path replaces the whole base. -/
def urljoinAbs (base u : String) : String :=
  match splitAtColon base.data with
  | some (scheme, '/' :: '/' :: rest) =>
      ⟨scheme ++ [':', '/', '/'] ++ hostPart rest ++ u.data⟩
  | _ => u

/-- Model of `SeleniumRecursiveLoader._normalize_url` (lines 124-138):
an href starting with `"/"` is resolved against the base with `urljoin`;
an href starting with the base URL has its trailing slashes stripped;
any other href maps to the empty string and is later discarded. -/
def normalize_url (baseUrl url : String) : String :=
  if pyStartswith url "/" then urljoinAbs baseUrl url
  else if pyStartswith url baseUrl then pyRstripSlash url
  else ""

/-- The loader configuration built by `SeleniumRecursiveLoader.__init__`
(lines 51-60): the base URL and every exclusion entry are
trailing-slash-stripped once, up front. -/
structure LoaderConfig where
  baseUrl : String
  excludeUrls : List String
  maxDepth : Nat
deriving Repr

/-- From `__init__`: `self._base_url = base_url.rstrip("/")`,
`self._exclude_urls = [url.rstrip("/") for url in exclude_urls]`. -/
def mkLoaderConfig (base_url : String) (exclude_urls : List String)
    (max_depth : Nat) : LoaderConfig :=
  { baseUrl := pyRstripSlash base_url
    excludeUrls := exclude_urls.map pyRstripSlash
    maxDepth := max_depth }


/-- A langchain `Document` as the crawler produces it:
`Document(page_content=content, metadata={"source": url})`. -/
structure Document where
  page_content : String
  source : String
deriving DecidableEq, Repr

/-- A rendered page: the result of `page_extractor(driver.page_source)`
and the `href` attributes of the page's `<a href>` tags in document order
(BeautifulSoup `find_all` order). -/
structure Page where
  content : String
  hrefs : List String
deriving Repr

/-- The browser world: what each navigation returns and whether each
`driver.get` and `WebDriverWait` poll succeeds.  `readyOk c` is the
success of the 10-second wait on `not page_ready_check(driver)` while the
driver displays page `c` (`none`: no page loaded yet); `getOk u` is the
success of `driver.get(u)`. -/
structure World where
  page : String → Page
  getOk : String → Bool
  readyOk : Option String → Bool

/-- The loader's mutable state: the `_visited_urls` set (insertion order
kept for bookkeeping; membership is what matters), the page currently in
the driver, and the log of every `driver.get` navigation. -/
structure CrawlState where
  visited : List String
  current : Option String
  navLog : List String
deriving Repr

/-- The object's state right after `__init__`. -/
def initState : CrawlState := ⟨[], none, []⟩

/-- Python's `set(...)` iteration is order-unspecified; the crawler is
parameterised over a set-iteration function. -/
abbrev SetIter := List String → List String

/-- Predicate: `si` is a lawful model of Python `set` construction-plus-iteration on
input `l`: the output has no duplicates and exactly the members of `l`. -/
def LawfulSetIterOn (si : SetIter) (l : List String) : Prop :=
  (si l).Nodup ∧ ∀ x, x ∈ si l ↔ x ∈ l

/-- The guard of `_load_url_recursive` (lines 100-105): `depth` exceeds
`max_depth`, or `url` does not start with the base URL, or starts with an
exclusion entry, or is already visited. -/
def pruneGuard (cfg : LoaderConfig) (visited : List String) (depth : Nat)
    (url : String) : Bool :=
  decide (depth > cfg.maxDepth)
    || !(pyStartswith url cfg.baseUrl)
    || cfg.excludeUrls.any (fun ex => pyStartswith url ex)
    || visited.contains url

/-- Model of the `for link in links: if link: documents.extend(...)` loop of
`_load_url_recursive` (lines 118-120), with `step` the recursive call at
`depth + 1`.  An exception from a child propagates, keeping the state
mutated so far. -/
def crawlChildren (step : CrawlState → String → CrawlState × Except Unit (List Document)) :
    CrawlState → List String → CrawlState × Except Unit (List Document)
  | st, [] => (st, .ok [])
  | st, link :: rest =>
    if link = "" then crawlChildren step st rest
    else
      match step st link with
      | (st', .error e) => (st', .error e)
      | (st', .ok ds) =>
        match crawlChildren step st' rest with
        | (st'', .error e) => (st'', .error e)
        | (st'', .ok ds') => (st'', .ok (ds ++ ds'))

/-- Model of `SeleniumRecursiveLoader._load_url_recursive` (lines 88-122).
The `fuel` argument makes the recursion structural; every call below
starts with `fuel = maxDepth + 2`, and since `depth` grows by one per
level while the guard prunes any call with `depth > maxDepth`, the
recursion depth never exceeds `maxDepth + 2`, so the fuel-exhausted
branch is unreachable from `load`.  Steps in source order:
the line-99 wait on the current page (a timeout raises), the prune guard,
`self._visited_urls.add(url)`, `driver.get(url)`, the line-111 wait,
content extraction into a `Document`, and recursion over the `set` of
normalised links. -/
def load_url_recursive (w : World) (cfg : LoaderConfig) (si : SetIter) :
    Nat → Nat → CrawlState → String → CrawlState × Except Unit (List Document)
  | 0, _, st, _ => (st, .error ())
  | fuel + 1, depth, st, url =>
    if !w.readyOk st.current then (st, .error ())
    else if pruneGuard cfg st.visited depth url then (st, .ok [])
    else
      let st₁ : CrawlState := { st with visited := url :: st.visited }
      if !w.getOk url then (st₁, .error ())
      else
        let st₂ : CrawlState :=
          { st₁ with current := some url, navLog := url :: st₁.navLog }
        if !w.readyOk (some url) then (st₂, .error ())
        else
          let pg := w.page url
          let doc : Document := ⟨pg.content, url⟩
          let links := si (pg.hrefs.map (normalize_url cfg.baseUrl))
          match crawlChildren (load_url_recursive w cfg si fuel (depth + 1)) st₂ links with
          | (st', .error e) => (st', .error e)
          | (st', .ok ds) => (st', .ok (doc :: ds))

/-- The seed loop of `load` (lines 83-84): each seed is crawled at depth 0
against the shared state; an exception aborts the loop. -/
def loadSeeds (w : World) (cfg : LoaderConfig) (si : SetIter) :
    CrawlState → List String → CrawlState × Except Unit (List Document)
  | st, [] => (st, .ok [])
  | st, u :: rest =>
    match load_url_recursive w cfg si (cfg.maxDepth + 2) 0 st u with
    | (st', .error e) => (st', .error e)
    | (st', .ok ds) =>
      match loadSeeds w cfg si st' rest with
      | (st'', .error e) => (st'', .error e)
      | (st'', .ok ds') => (st'', .ok (ds ++ ds'))

/-- Model of `SeleniumRecursiveLoader.load` (lines 74-86): crawl every seed, then
`self.close()`.  The returned `Nat` counts `driver.quit()` calls; there is
no `try/finally`, so an exception leaves the count at zero. -/
def load (w : World) (cfg : LoaderConfig) (si : SetIter) (urls : List String) :
    CrawlState × Except Unit (List Document) × Nat :=
  match loadSeeds w cfg si initState urls with
  | (st, .ok ds) => (st, .ok ds, 1)
  | (st, .error e) => (st, .error e, 0)

/-- A canonical lawful set-iteration model: first occurrences, in order. -/
def pySetCanon : SetIter := fun l => l.dedup

/-- The driver state that `default_page_ready_check` inspects: whether an
element containing the loading text exists, and the page source. -/
structure DriverView where
  hasLoadingElem : Bool
  pageSource : String
deriving Repr

/-- The loading-indicator literal of line 156. -/
def loadingText : String := "Пожалуйста, подождите! Идет загрузка..."

/-- The bot-challenge literal of line 157. -/
def ddosText : String := "Проверка браузера перед переходом"

/-- Model of `driver.find_element(By.XPATH, ...)` for the loading text: returns the
element or raises `NoSuchElementException` (`none`). -/
def findLoadingElem (d : DriverView) : Option Unit :=
  if d.hasLoadingElem then some () else none

/-- Python `x is not None` for a value that may be `None`. -/
def isNotNone {α : Type} (x : Option α) : Bool := x.isSome

/-- Model of `default_page_ready_check` (lines 145-160).  Inside the `try` block,
`find_element` either returns an element or raises; a raise lands in the
`except` clause, which returns `False`.  When it returns, the function
evaluates `loading_text is not None or ddos_guard_text is not None` where
`loading_text` is the element (never `None`) and `ddos_guard_text` is the
`bool` of the substring test — a Python `bool` is never `None` either, so
both operands of `or` are applied to `is not None` verbatim. -/
def default_page_ready_check (d : DriverView) : Bool :=
  match findLoadingElem d with
  | none => false
  | some elem =>
    let ddos_guard_text : Bool := pyIn ddosText d.pageSource
    isNotNone (some elem) || isNotNone (some ddos_guard_text)

/-- Model of `DocumentProcessor.process_documents_to_vectorstore` (lines 83-111),
attempt loop for one document.  `embed a` is the success of the
`Chroma.from_documents` embedding/upsert call on attempt `a` (`false`
models a raised exception, which the `except Exception` clause catches).
The loop is Python's `for attempt in range(max_retries)`; `remaining`
counts the attempts still available including the current one, and
`attempt` is the current index, so `attempt < max_retries - 1` is
`remaining > 1` after consuming the current attempt.  Returns
(attempts made, `time.sleep(retry_delay)` calls made, success). -/
def attemptLoop (embed : Nat → Bool) : Nat → Nat → Nat × Nat × Bool
  | 0, _ => (0, 0, false)
  | remaining + 1, attempt =>
    if embed attempt then (1, 0, true)
    else if remaining = 0 then (1, 0, false)
    else
      let r := attemptLoop embed remaining (attempt + 1)
      (r.1 + 1, r.2.1 + 1, r.2.2)

/-- The outcome record for one document: its index in the input list, the
number of embedding attempts, the number of retry sleeps, and whether an
attempt succeeded. -/
structure DocOutcome where
  docIdx : Nat
  attempts : Nat
  sleeps : Nat
  success : Bool
deriving DecidableEq, Repr

/-- Model of `process_documents_to_vectorstore` (lines 83-111): the outer
`for splitted_document in docs` loop.  Every exception of the attempt
loop is caught inside it, so the loop always runs to completion and
yields one outcome per document; `embed i a` is the success of the call
for document `i` on attempt `a`. -/
def process_documents_to_vectorstore (embed : Nat → Nat → Bool)
    (max_retries : Nat) (docs : List Nat) : List DocOutcome :=
  docs.map (fun i =>
    let r := attemptLoop (embed i) max_retries 0
    ⟨i, r.1, r.2.1, r.2.2⟩)

/-- The JSON values that `json.dump`/`json.load` exchange with the cache
file.  `json.dump` with `ensure_ascii=False` followed by `json.load`
round-trips such a value exactly, so the file is modelled by the value
it serialises. -/
inductive Json where
  | str : String → Json
  | obj : List (String × Json) → Json
  | arr : List Json → Json
deriving Repr

/-- Assoc-list lookup, Python `doc["key"]`. -/
def jsonGet (key : String) : List (String × Json) → Option Json
  | [] => none
  | (k, v) :: rest => if k = key then some v else jsonGet key rest

/-- Model of langchain `Document.dict()`: the serialised record of one document. -/
def docDict (d : Document) : Json :=
  .obj [("page_content", .str d.page_content),
        ("metadata", .obj [("source", .str d.source)]),
        ("type", .str "Document")]

/-- Model of `DocumentStorage.save_documents` (lines 32-34): the JSON array written
to the cache file, in document order. -/
def save_documents (docs : List Document) : Json :=
  .arr (docs.map docDict)

/-- Rebuild one `Document` from its record, as line 39 does:
`Document(page_content=doc["page_content"], metadata=doc["metadata"])`.
Fails (`none`) when the record lacks the expected fields — Python would
raise a `KeyError` on such a corrupt file. -/
def loadDoc : Json → Option Document
  | .obj fields =>
    match jsonGet "page_content" fields, jsonGet "metadata" fields with
    | some (.str content), some (.obj metaFields) =>
      match jsonGet "source" metaFields with
      | some (.str src) => some ⟨content, src⟩
      | _ => none
    | _, _ => none
  | _ => none

/-- The list comprehension of line 39, record by record in file order; a
corrupt record aborts the whole load, as the raised `KeyError` would. -/
def loadDocs : List Json → Option (List Document)
  | [] => some []
  | j :: rest =>
    match loadDoc j, loadDocs rest with
    | some d, some ds => some (d :: ds)
    | _, _ => none

/-- Model of `DocumentStorage.load_documents` (lines 36-39): read the array back
into `Document`s, in file order. -/
def load_documents (j : Json) : Option (List Document) :=
  match j with
  | .arr items => loadDocs items
  | _ => none

/-! ### Concrete worlds used to instantiate the theorems -/

/-- A benign two-page site with a cycle: `A → B → A`. -/
def cycWorld : World :=
  { page := fun u =>
      if u = "https://h/a" then ⟨"A", ["https://h/b"]⟩
      else if u = "https://h/b" then ⟨"B", ["https://h/a"]⟩
      else ⟨"", []⟩
    getOk := fun _ => true
    readyOk := fun _ => true }

/-- Loader configuration for `cycWorld`: base `https://h`, no exclusions,
`max_depth = 5`. -/
def cycCfg : LoaderConfig := mkLoaderConfig "https://h" [] 5

/-- A benign five-page chain `p0 → p1 → p2 → p3 → p4`. -/
def chainWorld : World :=
  { page := fun u =>
      if u = "https://h/p0" then ⟨"P0", ["https://h/p1"]⟩
      else if u = "https://h/p1" then ⟨"P1", ["https://h/p2"]⟩
      else if u = "https://h/p2" then ⟨"P2", ["https://h/p3"]⟩
      else if u = "https://h/p3" then ⟨"P3", ["https://h/p4"]⟩
      else if u = "https://h/p4" then ⟨"P4", []⟩
      else ⟨"", []⟩
    getOk := fun _ => true
    readyOk := fun _ => true }

/-- Loader configuration for `chainWorld`: `max_depth = 2`. -/
def chainCfg : LoaderConfig := mkLoaderConfig "https://h" [] 2

/-- A site whose root links the same page twice, once as `/a` and once as
`/a/`; both href strings denote the one page, so the world renders the
same content for both URL spellings. -/
def slashWorld : World :=
  { page := fun u =>
      if u = "https://h" then ⟨"R", ["/a", "/a/"]⟩
      else if u = "https://h/a" then ⟨"A", []⟩
      else if u = "https://h/a/" then ⟨"A", []⟩
      else ⟨"", []⟩
    getOk := fun _ => true
    readyOk := fun _ => true }

/-- Loader configuration for `slashWorld`. -/
def slashCfg : LoaderConfig := mkLoaderConfig "https://h" [] 2

/-- A root page whose HTML lists link `b` before link `c`. -/
def orderWorld : World :=
  { page := fun u =>
      if u = "https://h" then ⟨"R", ["https://h/b", "https://h/c"]⟩
      else if u = "https://h/b" then ⟨"B", []⟩
      else if u = "https://h/c" then ⟨"C", []⟩
      else ⟨"", []⟩
    getOk := fun _ => true
    readyOk := fun _ => true }

/-- Loader configuration for `orderWorld`. -/
def orderCfg : LoaderConfig := mkLoaderConfig "https://h" [] 2

/-- A lawful set-iteration model that enumerates the set in the reverse
of first-occurrence order — Python guarantees nothing about `set` order,
so this is as legitimate a behaviour as `pySetCanon`. -/
def pySetRev : SetIter := fun l => l.dedup.reverse

/-- A site whose root renders fine but whose only child never becomes
ready: the line-111 `WebDriverWait` on it times out and raises. -/
def timeoutWorld : World :=
  { page := fun u =>
      if u = "https://h" then ⟨"R", ["https://h/bad"]⟩
      else ⟨"", []⟩
    getOk := fun _ => true
    readyOk := fun c => if c = some "https://h/bad" then false else true }

/-- Loader configuration for `timeoutWorld`. -/
def timeoutCfg : LoaderConfig := mkLoaderConfig "https://h" [] 2

/-- A URL is in scope of the configuration: it starts with the (stripped)
base URL and with no (stripped) exclusion entry. -/
def GoodUrl (cfg : LoaderConfig) (url : String) : Prop :=
  pyStartswith url cfg.baseUrl = true ∧
  ∀ ex ∈ cfg.excludeUrls, pyStartswith url ex = false

/-- Every URL recorded in the state — visited or navigated to — is in
scope. -/
def StateGood (cfg : LoaderConfig) (st : CrawlState) : Prop :=
  (∀ v ∈ st.visited, GoodUrl cfg v) ∧ (∀ v ∈ st.navLog, GoodUrl cfg v)

/-! ### Helper lemmas -/

/-- When every attempt fails, the attempt loop makes exactly one attempt
per remaining slot and sleeps between consecutive attempts only. -/
theorem attemptLoop_all_fail (embed : Nat → Bool) (hfail : ∀ a, embed a = false) :
    ∀ rem att, attemptLoop embed rem att = (rem, rem - 1, false) := by
  intro rem
  induction rem with
  | zero => intro att; rfl
  | succ r ih =>
    intro att
    simp only [attemptLoop, hfail att]
    cases r with
    | zero => simp
    | succ r' => simp [ih (att + 1)]

/-- Stripping trailing slashes is idempotent. -/
theorem pyRstripSlash_idem (s : String) :
    pyRstripSlash (pyRstripSlash s) = pyRstripSlash s := by
  simp [pyRstripSlash, List.reverse_reverse, List.dropWhile_idempotent]

/-- Appending one `"/"` does not change the stripped form. -/
theorem pyRstripSlash_append_slash (s : String) :
    pyRstripSlash (s ++ "/") = pyRstripSlash s := by
  have hd : (s ++ "/").data = s.data ++ ['/'] := by
    rw [String.data_append]
  simp [pyRstripSlash, hd, List.reverse_append, List.dropWhile]

/-- Python `startswith` is stable under appending to the longer string. -/
theorem pyStartswith_append (s pre t : String)
    (h : pyStartswith s pre = true) : pyStartswith (s ++ t) pre = true := by
  simp only [pyStartswith, List.isPrefixOf_iff_prefix] at h ⊢
  rw [String.data_append]
  exact h.trans (List.prefix_append _ _)

/-- A nonempty string not starting with `"/"` still does not start with
`"/"` after a `"/"` is appended. -/
theorem pyStartswith_slash_append (s : String) (hne : s ≠ "")
    (h : pyStartswith s "/" = false) :
    pyStartswith (s ++ "/") "/" = false := by
  rcases hs : s.data with _ | ⟨c, rest⟩
  · exact absurd (String.ext hs) hne
  · have hd : (s ++ "/").data = c :: (rest ++ ['/']) := by
      rw [String.data_append, hs]; rfl
    simp only [pyStartswith, hs, hd, List.isPrefixOf] at h ⊢
    simpa using h

/-! ### Claims -/

/-- C1 counterexample: the hrefs `"/a"` and `"/a/"` denote the same page
but normalize to different strings — the relative-link branch of
`_normalize_url` resolves with `urljoin` and keeps the trailing slash, so
the produced URL is not trailing-slash-stripped — and a crawl of a page
carrying both hrefs admits both spellings into the visited set as two
distinct nodes. -/
theorem c1_counterexample :
    normalize_url "https://h" "/a/" ≠ normalize_url "https://h" "/a" ∧
    pyRstripSlash (normalize_url "https://h" "/a/") ≠
      normalize_url "https://h" "/a/" ∧
    "https://h/a" ∈ (load slashWorld slashCfg pySetCanon ["https://h"]).1.visited ∧
    "https://h/a/" ∈ (load slashWorld slashCfg pySetCanon ["https://h"]).1.visited := by
  refine ⟨by decide, by decide, by decide, by decide⟩

/-- C1 amended: hrefs starting with `"/"` are resolved against the base
by `urljoin` with their trailing slash preserved; hrefs starting with the
base URL are trailing-slash-stripped, so for those (and only those) two
spellings differing by a trailing slash normalize identically; all other
hrefs normalize to the empty string and are discarded. -/
theorem c1_amended (base href : String) :
    (pyStartswith href "/" = true →
      normalize_url base href = urljoinAbs base href) ∧
    (pyStartswith href "/" = false → pyStartswith href base = true →
      normalize_url base href = pyRstripSlash href ∧
      pyRstripSlash (normalize_url base href) = normalize_url base href ∧
      (href ≠ "" →
        normalize_url base (href ++ "/") = normalize_url base href)) ∧
    (pyStartswith href "/" = false → pyStartswith href base = false →
      normalize_url base href = "") := by
  refine ⟨?_, ?_, ?_⟩
  · intro h1; simp [normalize_url, h1]
  · intro h1 h2
    refine ⟨by simp [normalize_url, h1, h2], ?_, ?_⟩
    · simp [normalize_url, h1, h2, pyRstripSlash_idem]
    · intro hne
      have h1' := pyStartswith_slash_append href hne h1
      have h2' := pyStartswith_append href base "/" h2
      simp [normalize_url, h1, h2, h1', h2', pyRstripSlash_append_slash]
  · intro h1 h2; simp [normalize_url, h1, h2]

/-- Witness for C1 amended: a base-prefixed href is stripped, stays
stripped, and collapses with its trailing-slash spelling. -/
theorem c1_witness :
    normalize_url "https://h" "https://h/x" = pyRstripSlash "https://h/x" ∧
    pyRstripSlash (normalize_url "https://h" "https://h/x") =
      normalize_url "https://h" "https://h/x" ∧
    normalize_url "https://h" ("https://h/x" ++ "/") =
      normalize_url "https://h" "https://h/x" :=
  have hx := (c1_amended "https://h" "https://h/x").2.1 (by decide) (by decide)
  ⟨hx.1, hx.2.1, hx.2.2 (by decide)⟩

/-- C2 counterexample: `_load_url_recursive` iterates the Python `set`
of normalized links, whose order is unspecified.  `pySetRev` is a lawful
set iteration (a duplicate-free permutation of the links), yet under it a
root whose HTML lists link `b` before link `c` returns the children in
the order `c`, `b` — not link-discovery order, refuting the claim that
children are visited in the order their links appear in the HTML. -/
theorem c2_counterexample :
    (pySetRev ["https://h/b", "https://h/c"]).Nodup ∧
    (pySetRev ["https://h/b", "https://h/c"]).Perm
      (["https://h/b", "https://h/c"].dedup) ∧
    (load orderWorld orderCfg pySetRev ["https://h"]).2.1 =
      .ok [⟨"R", "https://h"⟩, ⟨"C", "https://h/c"⟩, ⟨"B", "https://h/b"⟩] ∧
    [(⟨"R", "https://h"⟩ : Document), ⟨"C", "https://h/c"⟩,
      ⟨"B", "https://h/b"⟩] ≠
      [⟨"R", "https://h"⟩, ⟨"B", "https://h/b"⟩, ⟨"C", "https://h/c"⟩] := by
  refine ⟨by decide, by decide, by rfl, by decide⟩

/-- C2 amended: a successfully crawled page returns its own Document
first, followed by the concatenation of its children's Document lists
taken in the iteration order of the `set` of normalized links — an
unspecified order that need not match link-discovery order; a pruned call
returns the empty list. -/
theorem c2_amended (w : World) (cfg : LoaderConfig) (si : SetIter)
    (fuel depth : Nat) (st : CrawlState) (url : String) (ds : List Document)
    (hok : (load_url_recursive w cfg si (fuel + 1) depth st url).2 = .ok ds) :
    ds = [] ∨
    ∃ rest, ds = ⟨(w.page url).content, url⟩ :: rest ∧
      (crawlChildren (load_url_recursive w cfg si fuel (depth + 1))
        { st with visited := url :: st.visited, current := some url,
                  navLog := url :: st.navLog }
        (si ((w.page url).hrefs.map (normalize_url cfg.baseUrl)))).2 =
        .ok rest := by
  simp only [load_url_recursive] at hok
  split at hok
  · exact absurd hok (by simp)
  · split at hok
    · exact Or.inl (by injection hok.symm)
    · split at hok
      · exact absurd hok (by simp)
      · split at hok
        · exact absurd hok (by simp)
        · rename_i heq
          split at hok
          · exact absurd hok (by simp)
          · rename_i st' ds' hchild
            refine Or.inr ⟨ds', ?_, ?_⟩
            · injection hok with h; exact h.symm
            · rw [hchild]

/-- Witness for C2 amended: in the cyclic two-page world the successful
crawl of page A returns A's own Document at the head of the list. -/
theorem c2_witness :
    [(⟨"A", "https://h/a"⟩ : Document), ⟨"B", "https://h/b"⟩].head? =
      some ⟨(cycWorld.page "https://h/a").content, "https://h/a"⟩ := by
  have h := c2_amended cycWorld cycCfg pySetCanon 6 0 initState "https://h/a"
    [⟨"A", "https://h/a"⟩, ⟨"B", "https://h/b"⟩] (by rfl)
  rcases h with h | ⟨rest, hds, _⟩
  · exact absurd h (by decide)
  · rw [hds]; rfl

/-- C3: the claim says that whenever the page source contains the
bot-challenge substring the default readiness predicate reports the page
as not ready, including when the loading-indicator element is absent.
The code does the opposite: when the element is absent, `find_element`
raises and the `except` clause returns `False` for every page source —
the substring test never influences the result (its `is not None` guard
is always true anyway).  This theorem evaluates the embedded code at the
failing input: element absent, page source equal to the challenge text. -/
theorem c3_ready_check_ignores_challenge_without_indicator :
    (∀ src : String, default_page_ready_check ⟨false, src⟩ = false) ∧
    pyIn ddosText ddosText = true :=
  ⟨fun _ => rfl, by decide⟩

/-- If every step succeeds, the children loop succeeds. -/
theorem crawlChildren_ok_of_step_ok
    (step : CrawlState → String → CrawlState × Except Unit (List Document))
    (hstep : ∀ st url, ∃ st' ds, step st url = (st', Except.ok ds)) :
    ∀ links st, ∃ st' ds, crawlChildren step st links = (st', Except.ok ds) := by
  intro links
  induction links with
  | nil => intro st; exact ⟨st, [], rfl⟩
  | cons link rest ih =>
    intro st
    by_cases hl : link = ""
    · simpa [crawlChildren, hl] using ih st
    · obtain ⟨st', ds, hs⟩ := hstep st link
      obtain ⟨st'', ds', hc⟩ := ih st'
      exact ⟨st'', ds ++ ds', by simp [crawlChildren, hl, hs, hc]⟩

/-- In a world where every `driver.get` and every `WebDriverWait` poll
succeeds, `_load_url_recursive` never raises, for any state and URL.  The
fuel bookkeeping (`fuel + depth = max_depth + 2`) mirrors the source's
termination argument: depth grows by one per level and any call with
`depth > max_depth` is pruned. -/
theorem load_url_recursive_benign (w : World) (cfg : LoaderConfig)
    (si : SetIter) (hready : ∀ c, w.readyOk c = true)
    (hget : ∀ u, w.getOk u = true) :
    ∀ fuel depth st url, fuel + depth = cfg.maxDepth + 2 → 1 ≤ fuel →
      ∃ st' ds, load_url_recursive w cfg si fuel depth st url =
        (st', Except.ok ds) := by
  intro fuel
  induction fuel with
  | zero => intro depth st url _ h1; exact absurd h1 (by simp)
  | succ f ih =>
    intro depth st url hsum _
    cases hp : pruneGuard cfg st.visited depth url with
    | true => exact ⟨st, [], by simp [load_url_recursive, hready, hp]⟩
    | false =>
      have hdep : depth ≤ cfg.maxDepth := by
        simp only [pruneGuard, Bool.or_eq_false_iff,
          decide_eq_false_iff_not] at hp
        omega
      have hstep : ∀ st₀ u, ∃ st' ds,
          load_url_recursive w cfg si f (depth + 1) st₀ u =
            (st', Except.ok ds) := by
        intro st₀ u
        exact ih (depth + 1) st₀ u (by omega) (by omega)
      obtain ⟨st', ds, hc⟩ := crawlChildren_ok_of_step_ok _ hstep
        (si ((w.page url).hrefs.map (normalize_url cfg.baseUrl)))
        ⟨url :: st.visited, some url, url :: st.navLog⟩
      exact ⟨st', ⟨(w.page url).content, url⟩ :: ds,
        by simp [load_url_recursive, hready, hget, hp, hc]⟩

/-- In a benign world the seed loop of `load` never raises. -/
theorem loadSeeds_benign (w : World) (cfg : LoaderConfig) (si : SetIter)
    (hready : ∀ c, w.readyOk c = true) (hget : ∀ u, w.getOk u = true) :
    ∀ urls st, ∃ st' ds, loadSeeds w cfg si st urls =
      (st', Except.ok ds) := by
  intro urls
  induction urls with
  | nil => intro st; exact ⟨st, [], rfl⟩
  | cons u rest ih =>
    intro st
    obtain ⟨st', ds, h1⟩ := load_url_recursive_benign w cfg si hready hget
      (cfg.maxDepth + 2) 0 st u (by omega) (by omega)
    obtain ⟨st'', ds', h2⟩ := ih st'
    exact ⟨st'', ds ++ ds', by simp [loadSeeds, h1, h2]⟩

/-- C4 counterexample: in `timeoutWorld` the only child page never
becomes ready, so the line-111 wait raises mid-crawl — after the root was
already rendered, as the navigation log shows — the error propagates out
of `load`, and `driver.quit()` is never called: there is no
`try/finally`, so the teardown does not run on the failing exit path. -/
theorem c4_counterexample :
    (load timeoutWorld timeoutCfg pySetCanon ["https://h"]).2.1 =
      Except.error () ∧
    (load timeoutWorld timeoutCfg pySetCanon ["https://h"]).2.2 = 0 ∧
    (load timeoutWorld timeoutCfg pySetCanon ["https://h"]).1.navLog =
      ["https://h/bad", "https://h"] := ⟨rfl, rfl, rfl⟩

/-- C4 amended: the session is torn down exactly once on every run that
returns normally — in particular whenever every render and readiness wait
succeeds — but when a readiness or render failure raises mid-crawl the
exception propagates and the session is not closed at all. -/
theorem c4_amended (w : World) (cfg : LoaderConfig) (si : SetIter)
    (urls : List String) :
    ((∀ c, w.readyOk c = true) → (∀ u, w.getOk u = true) →
      (load w cfg si urls).2.2 = 1 ∧
      ∃ ds, (load w cfg si urls).2.1 = Except.ok ds) ∧
    ∀ e, (load w cfg si urls).2.1 = Except.error e →
      (load w cfg si urls).2.2 = 0 := by
  constructor
  · intro hready hget
    obtain ⟨st', ds, h⟩ := loadSeeds_benign w cfg si hready hget urls initState
    exact ⟨by simp [load, h], ds, by simp [load, h]⟩
  · intro e he
    rcases h : loadSeeds w cfg si initState urls with ⟨st, ex⟩
    cases ex with
    | ok ds => simp [load, h] at he
    | error e' => simp [load, h]

/-- Witness for C4 amended: in the benign cyclic world `load` completes
and quits the driver exactly once. -/
theorem c4_witness :
    (load cycWorld cycCfg pySetCanon ["https://h/a"]).2.2 = 1 :=
  ((c4_amended cycWorld cycCfg pySetCanon ["https://h/a"]).1
    (fun _ => rfl) (fun _ => rfl)).1

/-- C5: the cyclic graph `A → B → A` with `max_depth = 5` terminates and
yields exactly one Document for A and one for B, because each URL is
added to `_visited_urls` before its children are crawled. -/
theorem c5_cycle_terminates_two_docs :
    (load cycWorld cycCfg pySetCanon ["https://h/a"]).2.1 =
      .ok [⟨"A", "https://h/a"⟩, ⟨"B", "https://h/b"⟩] := by rfl

/-- C6: a seed heading a five-page chain crawled with `max_depth = 2`
yields exactly the three Documents of depths 0, 1 and 2; the deeper pages
are pruned by the depth guard without an error being raised. -/
theorem c6_depth_bound_three_docs :
    (load chainWorld chainCfg pySetCanon ["https://h/p0"]).2.1 =
      .ok [⟨"P0", "https://h/p0"⟩, ⟨"P1", "https://h/p1"⟩,
           ⟨"P2", "https://h/p2"⟩] := by rfl

/-- C7: a chunk whose embedding call fails on every attempt is retried up
to `max_retries` attempts with a sleep between consecutive attempts, then
the run moves on: its failure record appears in the outcome list, and
every chunk whose first attempt succeeds still gets its success record —
no error aborts the loop. -/
theorem c7_retry_then_move_on (embed : Nat → Nat → Bool) (max_retries : Nat)
    (docs : List Nat) (i : Nat) (hmr : 1 ≤ max_retries) (hi : i ∈ docs)
    (hfail : ∀ a, embed i a = false) :
    (⟨i, max_retries, max_retries - 1, false⟩ : DocOutcome) ∈
      process_documents_to_vectorstore embed max_retries docs ∧
    ∀ j ∈ docs, embed j 0 = true →
      (⟨j, 1, 0, true⟩ : DocOutcome) ∈
        process_documents_to_vectorstore embed max_retries docs := by
  constructor
  · simp only [process_documents_to_vectorstore, List.mem_map]
    exact ⟨i, hi, by rw [attemptLoop_all_fail (embed i) hfail]⟩
  · intro j hj hok
    simp only [process_documents_to_vectorstore, List.mem_map]
    refine ⟨j, hj, ?_⟩
    obtain ⟨m, rfl⟩ := Nat.exists_eq_add_of_le hmr
    simp [attemptLoop, hok, Nat.add_comm]

/-- Witness for C7: the spec's scenario — three chunks, the second fails
on both of its `max_retries = 2` attempts, the first and third succeed
immediately; the outcome list records all three. -/
theorem c7_witness :
    (⟨2, 2, 1, false⟩ : DocOutcome) ∈
      process_documents_to_vectorstore (fun j _ => !(j == 2)) 2 [1, 2, 3] ∧
    (⟨1, 1, 0, true⟩ : DocOutcome) ∈
      process_documents_to_vectorstore (fun j _ => !(j == 2)) 2 [1, 2, 3] ∧
    (⟨3, 1, 0, true⟩ : DocOutcome) ∈
      process_documents_to_vectorstore (fun j _ => !(j == 2)) 2 [1, 2, 3] :=
  have h := c7_retry_then_move_on (fun j _ => !(j == 2)) 2 [1, 2, 3] 2
    (by decide) (by decide) (fun _ => rfl)
  ⟨h.1, h.2 1 (by decide) rfl, h.2 3 (by decide) rfl⟩

/-- C8: saving a document list to the cache artifact and loading it back
returns an equal list — same sources, same contents, same order. -/
theorem c8_cache_round_trip (docs : List Document) :
    load_documents (save_documents docs) = some docs := by
  have h : ∀ d, loadDoc (docDict d) = some d := fun d => rfl
  induction docs with
  | nil => rfl
  | cons d rest ih =>
    simp only [save_documents, load_documents, List.map_cons, loadDocs, h] at ih ⊢
    rw [ih]

/-- A state predicate preserved by the step is preserved by the children
loop, whether it finishes or propagates an exception. -/
theorem crawlChildren_preserves (P : CrawlState → Prop)
    (step : CrawlState → String → CrawlState × Except Unit (List Document))
    (hstep : ∀ st url, P st → P (step st url).1) :
    ∀ links st, P st → P (crawlChildren step st links).1 := by
  intro links
  induction links with
  | nil => intro st hP; exact hP
  | cons link rest ih =>
    intro st hP
    by_cases hl : link = ""
    · simpa [crawlChildren, hl] using ih st hP
    · have h1 : P (step st link).1 := hstep st link hP
      rcases hs : step st link with ⟨st', ex⟩
      rw [hs] at h1
      cases ex with
      | error e => simpa [crawlChildren, hl, hs] using h1
      | ok ds =>
        have h2 := ih st' h1
        rcases hc : crawlChildren step st' rest with ⟨st'', ex'⟩
        rw [hc] at h2
        cases ex' <;> simpa [crawlChildren, hl, hs, hc] using h2

/-- Scope preservation for one recursive crawl step: if every URL already
recorded in the state is in scope, so is every URL recorded after, on
every exit — the guard admits only in-scope URLs to the visited set and
navigation happens only after the guard. -/
theorem load_url_recursive_scope (w : World) (cfg : LoaderConfig)
    (si : SetIter) :
    ∀ fuel depth st url, StateGood cfg st →
      StateGood cfg (load_url_recursive w cfg si fuel depth st url).1 := by
  intro fuel
  induction fuel with
  | zero => intro depth st url hP; exact hP
  | succ f ih =>
    intro depth st url hP
    cases hr : w.readyOk st.current with
    | false => simpa [load_url_recursive, hr] using hP
    | true =>
      cases hp : pruneGuard cfg st.visited depth url with
      | true => simpa [load_url_recursive, hr, hp] using hP
      | false =>
        have hurl : GoodUrl cfg url := by
          simp only [pruneGuard, Bool.or_eq_false_iff,
            decide_eq_false_iff_not, Bool.not_eq_false',
            List.any_eq_false] at hp
          exact ⟨hp.1.1.2, fun ex hex => by simpa using hp.1.2 ex hex⟩
        have hst₁ : StateGood cfg ⟨url :: st.visited, st.current, st.navLog⟩ := by
          refine ⟨?_, hP.2⟩
          intro v hv
          rcases List.mem_cons.mp hv with rfl | hv'
          · exact hurl
          · exact hP.1 v hv'
        have hst₂ : StateGood cfg ⟨url :: st.visited, some url, url :: st.navLog⟩ := by
          refine ⟨hst₁.1, ?_⟩
          intro v hv
          rcases List.mem_cons.mp hv with rfl | hv'
          · exact hurl
          · exact hP.2 v hv'
        cases hg : w.getOk url with
        | false => simpa [load_url_recursive, hr, hp, hg] using hst₁
        | true =>
          cases hr2 : w.readyOk (some url) with
          | false => simpa [load_url_recursive, hr, hp, hg, hr2] using hst₂
          | true =>
            have hchild := crawlChildren_preserves (StateGood cfg) _
              (fun st₀ u h => ih (depth + 1) st₀ u h)
              (si ((w.page url).hrefs.map (normalize_url cfg.baseUrl)))
              ⟨url :: st.visited, some url, url :: st.navLog⟩ hst₂
            rcases hc : crawlChildren (load_url_recursive w cfg si f (depth + 1))
                ⟨url :: st.visited, some url, url :: st.navLog⟩
                (si ((w.page url).hrefs.map (normalize_url cfg.baseUrl))) with ⟨st', ex⟩
            rw [hc] at hchild
            cases ex <;> simpa [load_url_recursive, hr, hp, hg, hr2, hc] using hchild

/-- Scope preservation across the whole seed loop. -/
theorem loadSeeds_scope (w : World) (cfg : LoaderConfig) (si : SetIter) :
    ∀ urls st, StateGood cfg st →
      StateGood cfg (loadSeeds w cfg si st urls).1 := by
  intro urls
  induction urls with
  | nil => intro st h; exact h
  | cons u rest ih =>
    intro st h
    have h1 := load_url_recursive_scope w cfg si (cfg.maxDepth + 2) 0 st u h
    rcases hs : load_url_recursive w cfg si (cfg.maxDepth + 2) 0 st u with ⟨st', ex⟩
    rw [hs] at h1
    cases ex with
    | error e => simpa [loadSeeds, hs] using h1
    | ok ds =>
      have h2 := ih st' h1
      rcases hc : loadSeeds w cfg si st' rest with ⟨st'', ex'⟩
      rw [hc] at h2
      cases ex' <;> simpa [loadSeeds, hs, hc] using h2

/-- C9: every URL ever inserted into `_visited_urls` — and every URL the
browser navigates to — starts with the trailing-slash-stripped base URL
and starts with no trailing-slash-stripped entry of the exclude list, for
every world, seed list, set-iteration order and configuration. -/
theorem c9_scope_invariant (w : World) (base_url : String)
    (exclude_urls : List String) (max_depth : Nat) (si : SetIter)
    (urls : List String) :
    ∀ v ∈ (load w (mkLoaderConfig base_url exclude_urls max_depth) si urls).1.visited ++
        (load w (mkLoaderConfig base_url exclude_urls max_depth) si urls).1.navLog,
      pyStartswith v (pyRstripSlash base_url) = true ∧
      ∀ ex ∈ exclude_urls, pyStartswith v (pyRstripSlash ex) = false := by
  intro v hv
  have hinit : StateGood (mkLoaderConfig base_url exclude_urls max_depth) initState :=
    ⟨by simp [initState], by simp [initState]⟩
  have hseeds := loadSeeds_scope w (mkLoaderConfig base_url exclude_urls max_depth)
    si urls initState hinit
  have hload : (load w (mkLoaderConfig base_url exclude_urls max_depth) si urls).1 =
      (loadSeeds w (mkLoaderConfig base_url exclude_urls max_depth) si initState urls).1 := by
    rcases h : loadSeeds w (mkLoaderConfig base_url exclude_urls max_depth)
      si initState urls with ⟨st, ex⟩
    cases ex <;> simp [load, h]
  rw [hload] at hv
  have hgood : GoodUrl (mkLoaderConfig base_url exclude_urls max_depth) v := by
    rcases List.mem_append.mp hv with h | h
    · exact hseeds.1 v h
    · exact hseeds.2 v h
  refine ⟨hgood.1, ?_⟩
  intro ex hex
  exact hgood.2 (pyRstripSlash ex)
    (by simp only [mkLoaderConfig, List.mem_map]; exact ⟨ex, hex, rfl⟩)

/-- Witness for C9: in the cyclic world's crawl the discovered URL
`https://h/b` was admitted to the visited set and is in scope. -/
theorem c9_witness :
    pyStartswith "https://h/b" (pyRstripSlash "https://h") = true ∧
    ∀ ex ∈ ([] : List String),
      pyStartswith "https://h/b" (pyRstripSlash ex) = false :=
  c9_scope_invariant cycWorld "https://h" [] 5 pySetCanon ["https://h/a"]
    "https://h/b" (by decide)

/-- C10: for every behaviour of the embedding call the ingestion loop
returns normally with one outcome per document, and a document whose
every attempt fails receives exactly `max_retries` attempts with
`max_retries - 1` sleeps — one between consecutive failed attempts and
none after the final one. -/
theorem c10_ingestion_total_and_retry_counts (embed : Nat → Nat → Bool)
    (max_retries : Nat) (docs : List Nat) :
    (process_documents_to_vectorstore embed max_retries docs).length = docs.length ∧
    ∀ o ∈ process_documents_to_vectorstore embed max_retries docs,
      (∀ a, embed o.docIdx a = false) →
      o.attempts = max_retries ∧ o.sleeps = max_retries - 1 ∧ o.success = false := by
  constructor
  · simp [process_documents_to_vectorstore]
  · intro o ho hfail
    simp only [process_documents_to_vectorstore, List.mem_map] at ho
    obtain ⟨i, hi, rfl⟩ := ho
    simp only at hfail ⊢
    rw [attemptLoop_all_fail (embed i) hfail]
    exact ⟨rfl, rfl, rfl⟩

/-- Witness for C10: two documents, every attempt failing, three retries:
the failing document's record shows 3 attempts, 2 sleeps, no success. -/
theorem c10_witness :
    (⟨0, 3, 2, false⟩ : DocOutcome).attempts = 3 ∧
    (⟨0, 3, 2, false⟩ : DocOutcome).sleeps = 3 - 1 ∧
    (⟨0, 3, 2, false⟩ : DocOutcome).success = false :=
  (c10_ingestion_total_and_retry_counts (fun _ _ => false) 3 [0, 1]).2
    ⟨0, 3, 2, false⟩ (by decide) (fun _ => rfl)

end AbituraBot
